import Mathlib

/-!
# Smart Music Playlist Manager — verification of the core

Shallow embedding of the repository's core:

* `structures/DoublyLinkedList.js` together with the enhanced version embedded in
  `ENHANCEMENTS_GUIDE.md` (the one actually used by the controller: it adds
  `getIndex`, `moveCurrentToIndex` and an indexed `addSong`).  A list state is
  the forward chain of songs (`songs`), the cursor as the position of the
  cursor node in that chain (`cur`, `none` when `current` is `null`), and the
  `size` counter kept as its own field exactly as the JS code maintains it.
  Node identity in the JS heap corresponds to position in the chain, so a
  cursor node pointer is faithfully represented by its index; pointer
  reassignments in the source become the corresponding index arithmetic here.
* `controllers/PlaylistController.js`: the controller state is the playlist
  plus the two LIFO action logs (lists with the head as the top of the stack,
  mirroring `Stack.js`) and the `isInitializing` flag.

Every operation is translated clause by clause from the JS source; stateful
methods become functions `State → State × ReturnValue`.
-/

/-- A song value: `{ title, artist, url, coverUrl }` (`coverUrl` optional). -/
structure Song where
  title : String
  artist : String
  url : String
  coverUrl : Option String
  deriving DecidableEq, Repr

/-- The controller's validity check on a song
(`!song || !song.title || !song.artist || !song.url` — empty JS strings are
falsy, so "missing or empty" both map to `""`). -/
def validSong (s : Song) : Bool :=
  s.title != "" && s.artist != "" && s.url != ""

/-- The walk `while (temp) { if (temp.song.title === title) ... temp = temp.next }`:
first node (with its position) whose title matches, walking from the head. -/
def findTitleNode (t : String) : List Song → Option (Nat × Song)
  | [] => none
  | s :: rest =>
    if s.title = t then some (0, s)
    else (findTitleNode t rest).map (fun p => (p.1 + 1, p.2))

/-- Unlinking the node at position `i` from the chain. -/
def removeAt : List Song → Nat → List Song
  | [], _ => []
  | _ :: rest, 0 => rest
  | s :: rest, i + 1 => s :: removeAt rest i

/-- Splicing a new node into the chain just before position `i`
(positions past the end append, which the source never reaches). -/
def insertAt (song : Song) : List Song → Nat → List Song
  | l, 0 => song :: l
  | [], _ + 1 => [song]
  | x :: rest, i + 1 => x :: insertAt song rest i

/-- `DoublyLinkedList` state: forward chain, cursor position, size counter. -/
structure DLL where
  songs : List Song
  cur : Option Nat
  size : Nat
  deriving DecidableEq, Repr

/-- `new DoublyLinkedList()`. -/
def DLL.empty : DLL := { songs := [], cur := none, size := 0 }

/-- `getCurrentSong()`. -/
def DLL.getCurrentSong (st : DLL) : Option Song :=
  match st.cur with
  | none => none
  | some c => st.songs[c]?

/-- `isEmpty()` — `this.size === 0`. -/
def DLL.isEmpty (st : DLL) : Bool := st.size == 0

/-- `getSize()`. -/
def DLL.getSize (st : DLL) : Nat := st.size

/-- `getIndex(title)` (enhanced list): first-match 0-based index or −1. -/
def DLL.getIndex (st : DLL) (title : String) : Int :=
  if title = "" then -1
  else
    match findTitleNode title st.songs with
    | none => -1
    | some p => (p.1 : Int)

/-- `addSong(song, index = this.size)` (enhanced list).  Mirrors the four JS
cases: empty list, insert at head, append at tail, middle splice.  The cursor
is a node pointer in the source, so its position shifts up by one exactly when
the insertion happens at or before it. -/
def DLL.addSong (st : DLL) (song : Song) (index : Int) : DLL × Option Song :=
  if st.size = 0 then
    ({ songs := [song], cur := some 0, size := 1 }, some song)
  else
    -- `validIndex = Math.max(0, Math.min(index, this.size))`, written inline
    if (max 0 (min index (st.size : Int))).toNat = 0 then
      ({ songs := song :: st.songs,
         cur := st.cur.map (fun c => c + 1),
         size := st.size + 1 }, some song)
    else if st.size ≤ (max 0 (min index (st.size : Int))).toNat then
      ({ songs := st.songs ++ [song], cur := st.cur, size := st.size + 1 },
       some song)
    else
      ({ songs := insertAt song st.songs (max 0 (min index (st.size : Int))).toNat,
         cur := match st.cur with
                | none => none
                | some c =>
                  if (max 0 (min index (st.size : Int))).toNat ≤ c then some (c + 1)
                  else some c,
         size := st.size + 1 }, some song)

/-- `removeSong(title)` (enhanced list; the `structures/` version has the same
observable behaviour on consistent states).  Mirrors the JS cases: guard
(`!this.head || !title`), only node, head, tail, middle.  The cursor pointer
is repaired per case when it referenced the removed node, and otherwise keeps
tracking the same node (so its position drops by one when the removal happened
before it). -/
def DLL.removeSong (st : DLL) (title : String) : DLL × Option Song :=
  if st.songs.isEmpty || title == "" then (st, none)
  else
    match findTitleNode title st.songs with
    | none => (st, none)
    | some (i, removed) =>
      if st.songs.length = 1 then
        ({ songs := [], cur := none, size := 0 }, some removed)
      else if i = 0 then
        ({ songs := removeAt st.songs 0,
           cur := match st.cur with
                  | none => none
                  | some c => if c = 0 then some 0 else some (c - 1),
           size := st.size - 1 }, some removed)
      else if i = st.songs.length - 1 then
        ({ songs := removeAt st.songs i,
           cur := match st.cur with
                  | none => none
                  | some c => if c = i then some (i - 1) else some c,
           size := st.size - 1 }, some removed)
      else
        ({ songs := removeAt st.songs i,
           cur := match st.cur with
                  | none => none
                  | some c =>
                    if c = i then some i
                    else if i < c then some (c - 1) else some c,
           size := st.size - 1 }, some removed)

/-- `playNext()`: step the cursor to its next node when one exists. -/
def DLL.playNext (st : DLL) : DLL × Option Song :=
  match st.cur with
  | none => (st, none)
  | some c =>
    if c + 1 < st.songs.length then
      ({ st with cur := some (c + 1) }, st.songs[c + 1]?)
    else (st, st.songs[c]?)

/-- `playPrevious()`: step the cursor to its previous node when one exists. -/
def DLL.playPrevious (st : DLL) : DLL × Option Song :=
  match st.cur with
  | none => (st, none)
  | some c =>
    if 0 < c then ({ st with cur := some (c - 1) }, st.songs[c - 1]?)
    else (st, st.songs[c]?)

/-- `moveCurrentToIndex(index)` (enhanced list): bounds check
`index < 0 || index >= this.size || this.isEmpty()`, then land on the node at
that position (the JS head/tail shortcuts and the traversal all reach exactly
the `index`-th node of the chain). -/
def DLL.moveCurrentToIndex (st : DLL) (index : Int) : DLL × Bool :=
  if index < 0 ∨ (st.size : Int) ≤ index ∨ st.size = 0 then (st, false)
  else ({ st with cur := some index.toNat }, true)

/-- The tag of an action record (`"ADD"` / `"REMOVE"`). -/
inductive ActionType where
  | ADD
  | REMOVE
  deriving DecidableEq, Repr

/-- An action record pushed by `recordAction`: the song, its index at the
time of the action, the cursor index before, and the cursor index right after
the original action (`currentIndexAfterAdd` / `currentIndexAfterRemove`). -/
structure PAction where
  type : ActionType
  song : Song
  index : Int
  previousCurrentIndex : Int
  currentIndexAfter : Int
  deriving DecidableEq, Repr

/-- `PlaylistController` state: playlist, the two LIFO logs (list head = top
of `Stack`), and the bulk-seeding flag. -/
structure Controller where
  playlist : DLL
  undoStack : List PAction
  redoStack : List PAction
  isInitializing : Bool
  deriving DecidableEq, Repr

/-- `new PlaylistController(...)`. -/
def Controller.empty : Controller :=
  { playlist := DLL.empty, undoStack := [], redoStack := [], isInitializing := false }

/-- `getCurrentSong()` on the controller. -/
def Controller.getCurrentSong (c : Controller) : Option Song :=
  c.playlist.getCurrentSong

/-- `getCurrentIndex()`: index of the current song found by first-match title
lookup, or −1 when there is no current song. -/
def Controller.getCurrentIndex (c : Controller) : Int :=
  match c.playlist.getCurrentSong with
  | none => -1
  | some s => c.playlist.getIndex s.title

/-- Controller-level `moveCurrentToIndex(index)`: fails only on an empty
playlist, otherwise clamps the index into `[0, size-1]` and delegates. -/
def Controller.moveCurrentToIndex (c : Controller) (index : Int) : Controller × Bool :=
  if c.playlist.isEmpty then (c, false)
  else
    let validIndex : Int := max 0 (min index ((c.playlist.size : Int) - 1))
    ({ c with playlist := (c.playlist.moveCurrentToIndex validIndex).1 }, true)

/-- `recordAction(action)`: skipped while seeding; otherwise pushes onto the
undo log and clears the redo log. -/
def Controller.recordAction (c : Controller) (a : PAction) : Controller :=
  if c.isInitializing then c
  else { c with undoStack := a :: c.undoStack, redoStack := [] }

/-- Controller `addSong(song)`: validate, capture cursor index before,
append (the one-argument JS call defaults the index to the list's size),
record an ADD action, return the current song. -/
def Controller.addSong (c : Controller) (song : Song) : Controller × Option Song :=
  if validSong song then
    let previousCurrentIndex := c.getCurrentIndex
    let newIndex : Int := (c.playlist.size : Int)
    let c1 : Controller := { c with playlist := (c.playlist.addSong song (c.playlist.size : Int)).1 }
    let c2 := c1.recordAction
      { type := ActionType.ADD, song := song, index := newIndex,
        previousCurrentIndex := previousCurrentIndex,
        currentIndexAfter := c1.getCurrentIndex }
    (c2, c2.playlist.getCurrentSong)
  else (c, c.playlist.getCurrentSong)

/-- Controller `removeSong(title)`: invalid or absent title is a no-op
returning null; otherwise remove, record a REMOVE action, return the song. -/
def Controller.removeSong (c : Controller) (title : String) : Controller × Option Song :=
  if title = "" then (c, none)
  else
    let index := c.playlist.getIndex title
    if index = -1 then (c, none)
    else
      let previousCurrentIndex := c.getCurrentIndex
      let pr := c.playlist.removeSong title
      match pr.2 with
      | none => (c, none)
      | some removed =>
        let c1 : Controller := { c with playlist := pr.1 }
        let c2 := c1.recordAction
          { type := ActionType.REMOVE, song := removed, index := index,
            previousCurrentIndex := previousCurrentIndex,
            currentIndexAfter := c1.getCurrentIndex }
        (c2, some removed)

/-- Controller `playNext()`: pure delegation, never recorded. -/
def Controller.playNext (c : Controller) : Controller × Option Song :=
  let pr := c.playlist.playNext
  ({ c with playlist := pr.1 }, pr.2)

/-- `undo()`: pop the top action; reverse it (ADD → remove by title, REMOVE →
reinsert at the recorded index); on failure push the action back onto the undo
log; on success restore the recorded cursor-before index (when ≥ 0) and move
the action to the redo log.  Both logs are plain pushes/pops here — `undo`
never calls `recordAction`. -/
def Controller.undo (c : Controller) : Controller × Option Song :=
  match c.undoStack with
  | [] => (c, none)
  | action :: rest =>
    let c0 : Controller := { c with undoStack := rest }
    match action.type with
    | ActionType.ADD =>
      let pr := c0.playlist.removeSong action.song.title
      match pr.2 with
      | none => ({ c0 with undoStack := action :: rest }, c0.playlist.getCurrentSong)
      | some _ =>
        let c1 : Controller := { c0 with playlist := pr.1 }
        let c2 := if 0 ≤ action.previousCurrentIndex then
            (c1.moveCurrentToIndex action.previousCurrentIndex).1
          else c1
        let c3 : Controller := { c2 with redoStack := action :: c2.redoStack }
        (c3, c3.playlist.getCurrentSong)
    | ActionType.REMOVE =>
      let pr := c0.playlist.addSong action.song action.index
      match pr.2 with
      | none => ({ c0 with undoStack := action :: rest }, c0.playlist.getCurrentSong)
      | some _ =>
        let c1 : Controller := { c0 with playlist := pr.1 }
        let c2 := if 0 ≤ action.previousCurrentIndex then
            (c1.moveCurrentToIndex action.previousCurrentIndex).1
          else c1
        let c3 : Controller := { c2 with redoStack := action :: c2.redoStack }
        (c3, c3.playlist.getCurrentSong)

/-- `redo()`: pop the top redo action; re-apply it; on failure push it back
onto the redo log; on success restore the recorded cursor-after index (when
≥ 0) and push the action back onto the undo log (a plain push — `redo` never
calls `recordAction`, so the redo log is not cleared). -/
def Controller.redo (c : Controller) : Controller × Option Song :=
  match c.redoStack with
  | [] => (c, none)
  | action :: rest =>
    let c0 : Controller := { c with redoStack := rest }
    match action.type with
    | ActionType.ADD =>
      let pr := c0.playlist.addSong action.song action.index
      match pr.2 with
      | none => ({ c0 with redoStack := action :: rest }, c0.playlist.getCurrentSong)
      | some _ =>
        let c1 : Controller := { c0 with playlist := pr.1 }
        let c2 := if 0 ≤ action.currentIndexAfter then
            (c1.moveCurrentToIndex action.currentIndexAfter).1
          else c1
        let c3 : Controller := { c2 with undoStack := action :: c2.undoStack }
        (c3, c3.playlist.getCurrentSong)
    | ActionType.REMOVE =>
      let pr := c0.playlist.removeSong action.song.title
      match pr.2 with
      | none => ({ c0 with redoStack := action :: rest }, c0.playlist.getCurrentSong)
      | some _ =>
        let c1 : Controller := { c0 with playlist := pr.1 }
        let c2 := if 0 ≤ action.currentIndexAfter then
            (c1.moveCurrentToIndex action.currentIndexAfter).1
          else c1
        let c3 : Controller := { c2 with undoStack := action :: c2.undoStack }
        (c3, c3.playlist.getCurrentSong)

/-- `initializePlaylist(songs)`: engage the seeding flag, add each valid entry
(skipping invalid ones individually), then drop the flag and clear both logs
defensively. -/
def Controller.initPlaylist (c : Controller) (songs : List Song) : Controller :=
  let c1 : Controller := { c with isInitializing := true }
  let c2 := songs.foldl
    (fun acc song => if validSong song then (acc.addSong song).1 else acc) c1
  { c2 with isInitializing := false, undoStack := [], redoStack := [] }

/-- `canUndo()`. -/
def Controller.canUndo (c : Controller) : Bool := !c.undoStack.isEmpty

/-- `canRedo()`. -/
def Controller.canRedo (c : Controller) : Bool := !c.redoStack.isEmpty

/-! ## Chain lemmas -/

lemma findTitleNode_eq_none (t : String) (l : List Song)
    (h : ∀ s ∈ l, s.title ≠ t) : findTitleNode t l = none := by
  induction l with
  | nil => rfl
  | cons s rest ih =>
    simp only [findTitleNode]
    rw [if_neg (h s (by simp)), ih (fun x hx => h x (by simp [hx]))]
    rfl

lemma findTitleNode_sound (t : String) (l : List Song) (i : Nat) (s : Song)
    (h : findTitleNode t l = some (i, s)) :
    i < l.length ∧ l[i]? = some s ∧ s.title = t := by
  induction l generalizing i with
  | nil => simp [findTitleNode] at h
  | cons x rest ih =>
    simp only [findTitleNode] at h
    by_cases hx : x.title = t
    · rw [if_pos hx] at h
      injection h with h2
      injection h2 with hi hs
      subst hi; subst hs
      exact ⟨by simp, by simp, hx⟩
    · rw [if_neg hx] at h
      cases hfind : findTitleNode t rest with
      | none => rw [hfind] at h; simp at h
      | some p =>
        rw [hfind] at h
        obtain ⟨j, s2⟩ := p
        simp at h
        obtain ⟨h1, h2⟩ := h
        subst h2
        obtain ⟨hlt, hget, hti⟩ := ih j hfind
        refine ⟨by simp only [List.length_cons]; omega, ?_, hti⟩
        have hij : i = j + 1 := by omega
        subst hij
        simpa using hget

lemma findTitleNode_append_left (t : String) (l l2 : List Song) (i : Nat) (s : Song)
    (h : findTitleNode t l = some (i, s)) :
    findTitleNode t (l ++ l2) = some (i, s) := by
  induction l generalizing i with
  | nil => simp [findTitleNode] at h
  | cons x rest ih =>
    have hstep : findTitleNode t ((x :: rest) ++ l2) =
        (if x.title = t then some (0, x)
         else (findTitleNode t (rest ++ l2)).map (fun p => (p.1 + 1, p.2))) := rfl
    simp only [findTitleNode] at h
    rw [hstep]
    by_cases hx : x.title = t
    · rw [if_pos hx] at h ⊢; exact h
    · rw [if_neg hx] at h ⊢
      cases hfind : findTitleNode t rest with
      | none => rw [hfind] at h; simp at h
      | some p =>
        rw [hfind] at h
        obtain ⟨j, s2⟩ := p
        simp at h
        obtain ⟨h1, h2⟩ := h
        subst h2
        rw [ih j hfind]
        simp [h1]

lemma findTitleNode_append_absent (t : String) (l : List Song) (s2 : Song)
    (h : ∀ s ∈ l, s.title ≠ t) (h2 : s2.title = t) :
    findTitleNode t (l ++ [s2]) = some (l.length, s2) := by
  induction l with
  | nil => simp [findTitleNode, h2]
  | cons x rest ih =>
    have hstep : findTitleNode t ((x :: rest) ++ [s2]) =
        (if x.title = t then some (0, x)
         else (findTitleNode t (rest ++ [s2])).map (fun p => (p.1 + 1, p.2))) := rfl
    rw [hstep, if_neg (h x (by simp)), ih (fun y hy => h y (by simp [hy]))]
    rfl

lemma removeAt_append_last (l : List Song) (s : Song) :
    removeAt (l ++ [s]) l.length = l := by
  induction l with
  | nil => rfl
  | cons x rest ih =>
    have hstep : removeAt ((x :: rest) ++ [s]) (x :: rest).length =
        x :: removeAt (rest ++ [s]) rest.length := rfl
    rw [hstep, ih]

lemma removeAt_length (l : List Song) (i : Nat) (h : i < l.length) :
    (removeAt l i).length = l.length - 1 := by
  induction l generalizing i with
  | nil => simp at h
  | cons x rest ih =>
    cases i with
    | zero => simp [removeAt]
    | succ j =>
      simp only [removeAt, List.length_cons]
      rw [ih j (by simpa using h)]
      simp at h
      omega

lemma removeAt_get_lt (l : List Song) (i j : Nat) (h : j < i) :
    (removeAt l i)[j]? = l[j]? := by
  induction l generalizing i j with
  | nil => simp [removeAt]
  | cons x rest ih =>
    cases i with
    | zero => omega
    | succ k =>
      cases j with
      | zero => simp [removeAt]
      | succ m =>
        simp only [removeAt, List.getElem?_cons_succ]
        exact ih k m (by omega)

lemma removeAt_get_ge (l : List Song) (i j : Nat) (h : i ≤ j) :
    (removeAt l i)[j]? = l[j + 1]? := by
  induction l generalizing i j with
  | nil => simp [removeAt]
  | cons x rest ih =>
    cases i with
    | zero => simp [removeAt]
    | succ k =>
      cases j with
      | zero => omega
      | succ m =>
        simp only [removeAt, List.getElem?_cons_succ]
        exact ih k m (by omega)

lemma insertAt_length (s : Song) (l : List Song) (i : Nat) :
    (insertAt s l i).length = l.length + 1 := by
  induction l generalizing i with
  | nil => cases i <;> simp [insertAt]
  | cons x rest ih =>
    cases i with
    | zero => simp [insertAt]
    | succ k => simp only [insertAt, List.length_cons, ih]

lemma DLL.removeSong_absent (st : DLL) (t : String)
    (h : ∀ s ∈ st.songs, s.title ≠ t) : st.removeSong t = (st, none) := by
  unfold DLL.removeSong
  split
  · rfl
  · rw [findTitleNode_eq_none t st.songs h]

lemma findTitleNode_nodup (l : List Song) (i : Nat) (s : Song)
    (hnd : (l.map Song.title).Nodup) (hget : l[i]? = some s) :
    findTitleNode s.title l = some (i, s) := by
  induction l generalizing i with
  | nil => simp at hget
  | cons x rest ih =>
    cases i with
    | zero =>
      simp only [List.getElem?_cons_zero, Option.some.injEq] at hget
      subst hget
      simp [findTitleNode]
    | succ j =>
      simp only [List.getElem?_cons_succ] at hget
      simp only [List.map_cons, List.nodup_cons] at hnd
      have hmem : s ∈ rest := by
        have := List.getElem?_eq_some_iff.mp hget
        obtain ⟨hj, heq⟩ := this
        exact heq ▸ List.getElem_mem hj
      have hx : ¬x.title = s.title := by
        intro hcontra
        exact hnd.1 (hcontra ▸ List.mem_map_of_mem Song.title hmem)
      simp only [findTitleNode]
      rw [if_neg hx, ih j hnd.2 hget]
      rfl

lemma Controller.getCurrentIndex_of_nodup (c : Controller) (i : Nat)
    (hc : c.playlist.cur = some i)
    (hs : i < c.playlist.songs.length)
    (hnd : (c.playlist.songs.map Song.title).Nodup)
    (hnb : ∀ s ∈ c.playlist.songs, s.title ≠ "") :
    c.getCurrentIndex = (i : Int) := by
  have hget : c.playlist.songs[i]? = some c.playlist.songs[i] :=
    List.getElem?_eq_getElem hs
  unfold Controller.getCurrentIndex DLL.getCurrentSong
  rw [hc]
  simp only [hget]
  unfold DLL.getIndex
  rw [if_neg (hnb _ (List.getElem_mem hs)), findTitleNode_nodup _ i _ hnd hget]

/-! ## Sample data used by witnesses -/

def songA : Song := { title := "A", artist := "artA", url := "uA", coverUrl := none }

def songB : Song := { title := "B", artist := "artB", url := "uB", coverUrl := none }

def songC : Song := { title := "C", artist := "artC", url := "uC", coverUrl := none }

def songT1 : Song := { title := "T", artist := "art1", url := "u1", coverUrl := none }

def songT2 : Song := { title := "T", artist := "art2", url := "u2", coverUrl := none }

/-! ## Claim theorems -/

/-- **C6**: for every list state, `moveCurrentToIndex(index)` succeeds exactly
when `0 ≤ index < size`; it never alters the list contents; on failure the
whole state (in particular the cursor) is unchanged; and the two boundary
calls `moveCurrentToIndex(-1)` and `moveCurrentToIndex(size)` both fail. -/
theorem C6_moveCursor_bounds (st : DLL) (idx : Int) :
    ((st.moveCurrentToIndex idx).2 = true ↔ 0 ≤ idx ∧ idx < (st.size : Int)) ∧
    (st.moveCurrentToIndex idx).1.songs = st.songs ∧
    ((st.moveCurrentToIndex idx).2 = false → (st.moveCurrentToIndex idx).1 = st) ∧
    (st.moveCurrentToIndex (-1)).2 = false ∧
    (st.moveCurrentToIndex ((st.size : Int))).2 = false := by
  unfold DLL.moveCurrentToIndex
  refine ⟨?_, ?_, ?_, ?_, ?_⟩
  · split
    · simp only [Bool.false_eq_true, false_iff]
      omega
    · simp only [true_iff]
      omega
  · split <;> rfl
  · split
    · intro _; rfl
    · simp
  · simp
  · simp

/-- **C6 witness**: concrete instance at a two-song list. -/
theorem C6_witness :
    ((({ songs := [songA, songB], cur := some 0, size := 2 } : DLL).moveCurrentToIndex 2).2 = false) ∧
    ((({ songs := [songA, songB], cur := some 0, size := 2 } : DLL).moveCurrentToIndex (-1)).2 = false) ∧
    ((({ songs := [songA, songB], cur := some 0, size := 2 } : DLL).moveCurrentToIndex 1).2 = true) := by
  have h := C6_moveCursor_bounds { songs := [songA, songB], cur := some 0, size := 2 } 1
  exact ⟨by decide, h.2.2.2.1, h.1.mpr (by decide)⟩

/-- **C9**: removing a title with no matching song leaves the whole controller
state unchanged and returns null: no list change, no cursor change, no action
recorded, redo log untouched. -/
theorem C9_remove_absent_noop (c : Controller) (title : String)
    (habs : ∀ s ∈ c.playlist.songs, s.title ≠ title) :
    c.removeSong title = (c, none) := by
  unfold Controller.removeSong
  by_cases ht : title = ""
  · rw [if_pos ht]
  · rw [if_neg ht]
    have hf : findTitleNode title c.playlist.songs = none :=
      findTitleNode_eq_none _ _ habs
    have hidx : c.playlist.getIndex title = -1 := by
      unfold DLL.getIndex
      rw [if_neg ht, hf]
    simp only [hidx]
    rfl

/-- **C9 witness**: removing an absent title from a one-song controller. -/
theorem C9_witness :
    (∀ s ∈ (Controller.empty.addSong songA).1.playlist.songs, s.title ≠ "Z") ∧
    (Controller.empty.addSong songA).1.removeSong "Z" = ((Controller.empty.addSong songA).1, none) :=
  ⟨by decide, C9_remove_absent_noop (Controller.empty.addSong songA).1 "Z" (by decide)⟩

/-- **C4**: a failed `undo()` (popped ADD action whose song is no longer
present) and a failed `redo()` (popped REMOVE action whose song is no longer
present) push the popped action back onto its originating log and leave the
entire controller state exactly as if the call had never happened. -/
theorem C4_failed_undo_redo_noop (c : Controller) (a : PAction)
    (rest rest2 : List PAction) :
    (c.undoStack = a :: rest → a.type = ActionType.ADD →
      (∀ s ∈ c.playlist.songs, s.title ≠ a.song.title) → (c.undo).1 = c) ∧
    (c.redoStack = a :: rest2 → a.type = ActionType.REMOVE →
      (∀ s ∈ c.playlist.songs, s.title ≠ a.song.title) → (c.redo).1 = c) := by
  constructor
  · intro hs hty habs
    obtain ⟨pl, U, R, flag⟩ := c
    simp only at hs habs
    subst hs
    unfold Controller.undo
    simp only [hty, DLL.removeSong_absent pl a.song.title habs]
  · intro hs hty habs
    obtain ⟨pl, U, R, flag⟩ := c
    simp only at hs habs
    subst hs
    unfold Controller.redo
    simp only [hty, DLL.removeSong_absent pl a.song.title habs]

/-- A controller whose undo log holds an ADD for the absent song `songB` and
whose redo log holds a REMOVE for the absent song `songC`. -/
def staleLogCtrl : Controller :=
  { playlist := { songs := [songA], cur := some 0, size := 1 },
    undoStack := [{ type := ActionType.ADD, song := songB, index := 1,
                    previousCurrentIndex := 0, currentIndexAfter := 0 }],
    redoStack := [{ type := ActionType.REMOVE, song := songC, index := 0,
                    previousCurrentIndex := 0, currentIndexAfter := 0 }],
    isInitializing := false }

/-- **C4 witness**: both failure paths at a concrete controller. -/
theorem C4_witness :
    (staleLogCtrl.undo).1 = staleLogCtrl ∧ (staleLogCtrl.redo).1 = staleLogCtrl :=
  ⟨(C4_failed_undo_redo_noop staleLogCtrl _ [] []).1 rfl rfl (by decide),
   (C4_failed_undo_redo_noop staleLogCtrl _ [] []).2 rfl rfl (by decide)⟩

/-- One list-level call in a sequence of `addSong`/`removeSong` operations. -/
inductive PlaylistOp where
  | add : Song → Int → PlaylistOp
  | remove : String → PlaylistOp
  deriving DecidableEq, Repr

/-- Run one operation on the list (keeping only the state). -/
def applyOp (st : DLL) : PlaylistOp → DLL
  | PlaylistOp.add s idx => (st.addSong s idx).1
  | PlaylistOp.remove t => (st.removeSong t).1

/-- Run a whole call sequence starting from the empty playlist. -/
def applyOps (ops : List PlaylistOp) : DLL := ops.foldl applyOp DLL.empty

lemma applyOp_size_ok (st : DLL) (h : st.size = st.songs.length) (op : PlaylistOp) :
    (applyOp st op).size = (applyOp st op).songs.length := by
  cases op with
  | add s idx =>
    simp only [applyOp]
    unfold DLL.addSong
    by_cases h0 : st.size = 0
    · rw [if_pos h0]; rfl
    · rw [if_neg h0]
      by_cases h1 : (max 0 (min idx (st.size : Int))).toNat = 0
      · rw [if_pos h1]
        simp [h]
      · rw [if_neg h1]
        by_cases h2 : st.size ≤ (max 0 (min idx (st.size : Int))).toNat
        · rw [if_pos h2]
          simp [h]
        · rw [if_neg h2]
          simp [insertAt_length, h]
  | remove t =>
    simp only [applyOp]
    unfold DLL.removeSong
    split
    · exact h
    · cases hf : findTitleNode t st.songs with
      | none => simp only [hf]; exact h
      | some p =>
        obtain ⟨i, srm⟩ := p
        obtain ⟨hlt, -, -⟩ := findTitleNode_sound t st.songs i srm hf
        simp only [hf]
        split
        · rfl
        · split
          · simp only
            rw [removeAt_length st.songs 0 (by omega), h]
          · split
            · simp only
              rw [removeAt_length st.songs i hlt, h]
            · simp only
              rw [removeAt_length st.songs i hlt, h]

lemma applyOps_size_ok (ops : List PlaylistOp) : ∀ st : DLL,
    st.size = st.songs.length →
    (ops.foldl applyOp st).size = (ops.foldl applyOp st).songs.length := by
  induction ops with
  | nil => intro st h; exact h
  | cons op rest ih =>
    intro st h
    exact ih _ (applyOp_size_ok st h op)

/-- **C7**: after any finite sequence of `addSong`/`removeSong` calls starting
from the empty playlist, the maintained `size` counter equals the number of
songs in the forward chain, and `isEmpty()` holds exactly when `size()` is
zero. -/
theorem C7_size_invariant (ops : List PlaylistOp) :
    (applyOps ops).getSize = (applyOps ops).songs.length ∧
    ((applyOps ops).isEmpty = true ↔ (applyOps ops).getSize = 0) := by
  have h := applyOps_size_ok ops DLL.empty rfl
  refine ⟨h, ?_⟩
  unfold DLL.isEmpty DLL.getSize
  simp

lemma removeSong_reduce (st : DLL) (title : String) (i : Nat) (s : Song)
    (htitle : title ≠ "")
    (hfind : findTitleNode title st.songs = some (i, s)) :
    st.removeSong title =
      (if st.songs.length = 1 then
        ({ songs := [], cur := none, size := 0 }, some s)
      else if i = 0 then
        ({ songs := removeAt st.songs 0,
           cur := match st.cur with
                  | none => none
                  | some c => if c = 0 then some 0 else some (c - 1),
           size := st.size - 1 }, some s)
      else if i = st.songs.length - 1 then
        ({ songs := removeAt st.songs i,
           cur := match st.cur with
                  | none => none
                  | some c => if c = i then some (i - 1) else some c,
           size := st.size - 1 }, some s)
      else
        ({ songs := removeAt st.songs i,
           cur := match st.cur with
                  | none => none
                  | some c =>
                    if c = i then some i
                    else if i < c then some (c - 1) else some c,
           size := st.size - 1 }, some s)) := by
  have hlt : i < st.songs.length := (findTitleNode_sound title st.songs i s hfind).1
  have hne : st.songs ≠ [] := by
    intro he
    rw [he] at hlt
    simp at hlt
  have hguard : (st.songs.isEmpty || (title == "")) = false := by
    simp [hne, htitle]
  unfold DLL.removeSong
  rw [if_neg (by simp [hguard]), hfind]

/-- **C1**: when `removeSong(title)` unlinks the cursor's own node (the first
title match is the node the cursor references): removing the only node leaves
a null cursor; removing the head moves the cursor to the new head; removing
the tail moves it to the new tail; removing a middle node moves it to the
removed node's former next neighbour. -/
theorem C1_cursor_repair (st : DLL) (title : String) (i : Nat) (s : Song)
    (htitle : title ≠ "")
    (hfind : findTitleNode title st.songs = some (i, s))
    (hcur : st.cur = some i) :
    (st.songs.length = 1 → ((st.removeSong title).1).cur = none) ∧
    (1 < st.songs.length → i = 0 →
      ((st.removeSong title).1).getCurrentSong = st.songs[1]?) ∧
    (1 < st.songs.length → i = st.songs.length - 1 →
      ((st.removeSong title).1).getCurrentSong = st.songs[st.songs.length - 2]?) ∧
    (0 < i → i < st.songs.length - 1 →
      ((st.removeSong title).1).getCurrentSong = st.songs[i + 1]?) := by
  have hlt : i < st.songs.length := (findTitleNode_sound title st.songs i s hfind).1
  rw [removeSong_reduce st title i s htitle hfind]
  refine ⟨?_, ?_, ?_, ?_⟩
  · intro h1
    rw [if_pos h1]
  · intro hgt hi0
    subst hi0
    rw [if_neg (by omega), if_pos rfl]
    unfold DLL.getCurrentSong
    simp only [hcur]
    show (removeAt st.songs 0)[0]? = st.songs[1]?
    exact removeAt_get_ge st.songs 0 0 (by omega)
  · intro hgt hiL
    rw [if_neg (by omega), if_neg (by omega), if_pos hiL]
    unfold DLL.getCurrentSong
    simp only [hcur]
    show (removeAt st.songs i)[i - 1]? = st.songs[st.songs.length - 2]?
    rw [removeAt_get_lt st.songs i (i - 1) (by omega)]
    have h2 : st.songs.length - 2 = i - 1 := by omega
    rw [h2]
  · intro hpos hmid
    rw [if_neg (by omega), if_neg (by omega), if_neg (by omega)]
    unfold DLL.getCurrentSong
    simp only [hcur]
    show (removeAt st.songs i)[i]? = st.songs[i + 1]?
    exact removeAt_get_ge st.songs i i (by omega)

/-- **C1 witness**: removing the cursor's middle node of a three-song list
moves the cursor to the former next neighbour. -/
theorem C1_witness :
    ((({ songs := [songA, songB, songC], cur := some 1, size := 3 } : DLL).removeSong
        "B").1).getCurrentSong = some songC := by
  have h := C1_cursor_repair
    { songs := [songA, songB, songC], cur := some 1, size := 3 } "B" 1 songB
    (by decide) (by decide) rfl
  have h4 := h.2.2.2 (by decide) (by decide)
  simpa using h4

/-- **C10**: a `removeSong(title)` call that removes a node other than the
cursor's node leaves the cursor on the same node as before — `currentSong()`
is unchanged; the cursor is reassigned only when its own node is removed. -/
theorem C10_remove_noncursor_keeps_current (st : DLL) (title : String) (i : Nat) (s : Song)
    (htitle : title ≠ "")
    (hfind : findTitleNode title st.songs = some (i, s))
    (hok : ∀ c, st.cur = some c → c < st.songs.length)
    (hne : st.cur ≠ some i) :
    ((st.removeSong title).1).getCurrentSong = st.getCurrentSong := by
  have hlt := (findTitleNode_sound title st.songs i s hfind).1
  rw [removeSong_reduce st title i s htitle hfind]
  cases hcur : st.cur with
  | none =>
    by_cases h1 : st.songs.length = 1
    · rw [if_pos h1]
      unfold DLL.getCurrentSong
      simp [hcur]
    · rw [if_neg h1]
      by_cases h2 : i = 0
      · rw [if_pos h2]
        unfold DLL.getCurrentSong
        simp [hcur]
      · rw [if_neg h2]
        by_cases h3 : i = st.songs.length - 1
        · rw [if_pos h3]
          unfold DLL.getCurrentSong
          simp [hcur]
        · rw [if_neg h3]
          unfold DLL.getCurrentSong
          simp [hcur]
  | some c =>
    have hci : c ≠ i := fun h => hne (h ▸ hcur)
    have hcl : c < st.songs.length := hok c hcur
    by_cases h1 : st.songs.length = 1
    · omega
    · rw [if_neg h1]
      by_cases h2 : i = 0
      · subst h2
        rw [if_pos rfl]
        unfold DLL.getCurrentSong
        simp only [hcur]
        rw [if_neg hci]
        show (removeAt st.songs 0)[c - 1]? = st.songs[c]?
        rw [removeAt_get_ge st.songs 0 (c - 1) (by omega)]
        congr 1
        omega
      · rw [if_neg h2]
        by_cases h3 : i = st.songs.length - 1
        · rw [if_pos h3]
          unfold DLL.getCurrentSong
          simp only [hcur]
          rw [if_neg hci]
          show (removeAt st.songs i)[c]? = st.songs[c]?
          exact removeAt_get_lt st.songs i c (by omega)
        · rw [if_neg h3]
          unfold DLL.getCurrentSong
          simp only [hcur]
          rw [if_neg hci]
          by_cases h4 : i < c
          · rw [if_pos h4]
            show (removeAt st.songs i)[c - 1]? = st.songs[c]?
            rw [removeAt_get_ge st.songs i (c - 1) (by omega)]
            congr 1
            omega
          · rw [if_neg h4]
            show (removeAt st.songs i)[c]? = st.songs[c]?
            exact removeAt_get_lt st.songs i c (by omega)

/-- **C10 witness**: removing the head while the cursor sits on the second
node leaves `currentSong()` unchanged. -/
theorem C10_witness :
    ((({ songs := [songA, songB], cur := some 1, size := 2 } : DLL).removeSong
        "A").1).getCurrentSong =
      ({ songs := [songA, songB], cur := some 1, size := 2 } : DLL).getCurrentSong := by
  exact C10_remove_noncursor_keeps_current
    { songs := [songA, songB], cur := some 1, size := 2 } "A" 0 songA
    (by decide) (by decide) (by intro c hc; simp at hc; subst hc; decide) (by decide)

/-- A controller with two songs sharing the title `"T"` and the cursor on the
second of them. -/
def dupTitleCtrl : Controller :=
  { playlist := { songs := [songT1, songT2], cur := some 1, size := 2 },
    undoStack := [], redoStack := [], isInitializing := false }

/-- A controller with distinct titles and the cursor on the second node. -/
def distinctCtrl : Controller :=
  { playlist := { songs := [songA, songB], cur := some 1, size := 2 },
    undoStack := [], redoStack := [], isInitializing := false }

/-- **C5**: `getCurrentIndex` is a first-match title lookup: it returns −1
with no current song; on a playlist with pairwise-distinct (spec-conformant,
non-empty) titles it equals the cursor node's true position; and on the
concrete duplicate-title state `dupTitleCtrl` (cursor on node 1, both nodes
titled `"T"`) it returns 0, differing from the cursor's actual position. -/
theorem C5_getCurrentIndex_first_match :
    (∀ c : Controller, c.playlist.cur = none → c.getCurrentIndex = -1) ∧
    (∀ c : Controller, ∀ i : Nat, c.playlist.cur = some i →
      i < c.playlist.songs.length →
      (c.playlist.songs.map Song.title).Nodup →
      (∀ s ∈ c.playlist.songs, s.title ≠ "") →
      c.getCurrentIndex = (i : Int)) ∧
    (dupTitleCtrl.getCurrentIndex = 0 ∧ dupTitleCtrl.playlist.cur = some 1) := by
  refine ⟨?_, ?_, by decide, by decide⟩
  · intro c h
    unfold Controller.getCurrentIndex DLL.getCurrentSong
    rw [h]
  · intro c i hc hlt hnd hnb
    exact Controller.getCurrentIndex_of_nodup c i hc hlt hnd hnb

/-- **C5 witness**: on the distinct-title controller the derived index equals
the cursor's true position. -/
theorem C5_witness : distinctCtrl.getCurrentIndex = (1 : Int) :=
  C5_getCurrentIndex_first_match.2.1 distinctCtrl 1 rfl (by decide) (by decide) (by decide)

lemma recordAction_playlist (c : Controller) (a : PAction) :
    (c.recordAction a).playlist = c.playlist := by
  unfold Controller.recordAction
  split <;> rfl

lemma recordAction_isInit (c : Controller) (a : PAction) :
    (c.recordAction a).isInitializing = c.isInitializing := by
  unfold Controller.recordAction
  split <;> rfl

lemma DLL.addSong_append (st : DLL) (s : Song)
    (hsz : st.size = st.songs.length) :
    (st.addSong s (st.size : Int)).1 =
      { songs := st.songs ++ [s],
        cur := if st.size = 0 then some 0 else st.cur,
        size := st.size + 1 } := by
  unfold DLL.addSong
  by_cases h0 : st.size = 0
  · rw [if_pos h0]
    have hnil : st.songs = [] := by
      rw [← List.length_eq_zero]
      omega
    simp [h0, hnil]
  · rw [if_neg h0]
    have hvi : (max 0 (min (st.size : Int) (st.size : Int))).toNat = st.size := by
      simp
    rw [hvi, if_neg h0, if_pos (Nat.le_refl st.size)]
    simp [h0]

lemma addSong_seed_step (c : Controller) (s : Song)
    (hv : validSong s = true)
    (hsz : c.playlist.size = c.playlist.songs.length) :
    ((c.addSong s).1.playlist.songs = c.playlist.songs ++ [s]) ∧
    ((c.addSong s).1.playlist.size = (c.addSong s).1.playlist.songs.length) ∧
    ((c.addSong s).1.isInitializing = c.isInitializing) := by
  unfold Controller.addSong
  rw [if_pos hv]
  simp only [recordAction_playlist, recordAction_isInit]
  rw [DLL.addSong_append c.playlist s hsz]
  simp [hsz]

lemma addSong_seeding_logs (c : Controller) (s : Song)
    (hinit : c.isInitializing = true) :
    (c.addSong s).1.undoStack = c.undoStack ∧
    (c.addSong s).1.redoStack = c.redoStack := by
  unfold Controller.addSong
  by_cases hv : validSong s
  · rw [if_pos hv]
    simp only [Controller.recordAction]
    rw [if_pos hinit]
    exact ⟨rfl, rfl⟩
  · rw [if_neg hv]
    exact ⟨rfl, rfl⟩

lemma seed_fold (songs : List Song) : ∀ c : Controller,
    c.isInitializing = true →
    c.playlist.size = c.playlist.songs.length →
    ((songs.foldl (fun acc song => if validSong song then (acc.addSong song).1 else acc)
        c).playlist.songs
      = c.playlist.songs ++ songs.filter (fun s => validSong s)) := by
  induction songs with
  | nil =>
    intro c h1 h2
    simp
  | cons s rest ih =>
    intro c h1 h2
    simp only [List.foldl_cons, List.filter_cons]
    by_cases hv : validSong s
    · rw [if_pos hv, if_pos hv]
      obtain ⟨ha, hb, hc2⟩ := addSong_seed_step c s hv h2
      rw [ih (c.addSong s).1 (by rw [hc2]; exact h1) hb, ha]
      simp
    · rw [if_neg hv, if_neg hv]
      exact ih c h1 h2

/-- **C8**: `initializePlaylist(songs)` loads the valid entries in order while
seeding (an `addSong` under the seeding flag touches neither log), skips each
invalid entry individually without aborting the batch, and afterwards both
action logs are empty whatever they held before. -/
theorem C8_initialize_seeds_and_clears (c : Controller) (songs : List Song)
    (hsz : c.playlist.size = c.playlist.songs.length) :
    ((c.initPlaylist songs).undoStack = []) ∧
    ((c.initPlaylist songs).redoStack = []) ∧
    ((c.initPlaylist songs).playlist.songs
      = c.playlist.songs ++ songs.filter (fun s => validSong s)) ∧
    (∀ c2 : Controller, ∀ s : Song, c2.isInitializing = true →
      (c2.addSong s).1.undoStack = c2.undoStack ∧
      (c2.addSong s).1.redoStack = c2.redoStack) := by
  refine ⟨rfl, rfl, ?_, fun c2 s h => addSong_seeding_logs c2 s h⟩
  unfold Controller.initPlaylist
  simp only
  exact seed_fold songs { c with isInitializing := true } rfl hsz

/-- A spec-invalid entry (empty artist) used to exercise the skip path. -/
def songBadX : Song := { title := "X", artist := "", url := "uX", coverUrl := none }

/-- **C8 witness**: seeding three entries (one invalid) over a controller with
stale logs loads the two valid ones in order and clears both logs. -/
theorem C8_witness :
    (staleLogCtrl.initPlaylist [songB, songBadX, songC]).undoStack = [] ∧
    (staleLogCtrl.initPlaylist [songB, songBadX, songC]).redoStack = [] ∧
    (staleLogCtrl.initPlaylist [songB, songBadX, songC]).playlist.songs
      = [songA, songB, songC] := by
  have h := C8_initialize_seeds_and_clears staleLogCtrl [songB, songBadX, songC] rfl
  refine ⟨h.1, h.2.1, ?_⟩
  rw [h.2.2.1]
  decide

lemma moveCurrent_stacks (c : Controller) (i : Int) :
    (c.moveCurrentToIndex i).1.undoStack = c.undoStack ∧
    (c.moveCurrentToIndex i).1.redoStack = c.redoStack := by
  unfold Controller.moveCurrentToIndex
  split <;> exact ⟨rfl, rfl⟩

lemma undo_log_shape (c : Controller) :
    ((c.undo).1.undoStack = c.undoStack ∧ (c.undo).1.redoStack = c.redoStack) ∨
    (∃ a : PAction, c.undoStack = a :: (c.undo).1.undoStack ∧
      (c.undo).1.redoStack = a :: c.redoStack) := by
  obtain ⟨pl, U, R, flag⟩ := c
  cases U with
  | nil => exact Or.inl ⟨rfl, rfl⟩
  | cons a rest =>
    unfold Controller.undo
    simp only
    cases ha : a.type with
    | ADD =>
      cases hr : (pl.removeSong a.song.title).2 with
      | none => exact Or.inl ⟨rfl, rfl⟩
      | some s =>
        refine Or.inr ⟨a, ?_, ?_⟩ <;>
          by_cases hp : (0 : Int) ≤ a.previousCurrentIndex <;>
            simp [hp, moveCurrent_stacks]
    | REMOVE =>
      cases hr : (pl.addSong a.song a.index).2 with
      | none => exact Or.inl ⟨rfl, rfl⟩
      | some s =>
        refine Or.inr ⟨a, ?_, ?_⟩ <;>
          by_cases hp : (0 : Int) ≤ a.previousCurrentIndex <;>
            simp [hp, moveCurrent_stacks]

lemma redo_log_shape (c : Controller) :
    ((c.redo).1.undoStack = c.undoStack ∧ (c.redo).1.redoStack = c.redoStack) ∨
    (∃ a : PAction, c.redoStack = a :: (c.redo).1.redoStack ∧
      (c.redo).1.undoStack = a :: c.undoStack) := by
  obtain ⟨pl, U, R, flag⟩ := c
  cases R with
  | nil => exact Or.inl ⟨rfl, rfl⟩
  | cons a rest =>
    unfold Controller.redo
    simp only
    cases ha : a.type with
    | ADD =>
      cases hr : (pl.addSong a.song a.index).2 with
      | none => exact Or.inl ⟨rfl, rfl⟩
      | some s =>
        refine Or.inr ⟨a, ?_, ?_⟩ <;>
          by_cases hp : (0 : Int) ≤ a.currentIndexAfter <;>
            simp [hp, moveCurrent_stacks]
    | REMOVE =>
      cases hr : (pl.removeSong a.song.title).2 with
      | none => exact Or.inl ⟨rfl, rfl⟩
      | some s =>
        refine Or.inr ⟨a, ?_, ?_⟩ <;>
          by_cases hp : (0 : Int) ≤ a.currentIndexAfter <;>
            simp [hp, moveCurrent_stacks]

/-- The concrete call sequence add(A), add(B), undo(), add(C). -/
def afterABundoC : Controller :=
  ((((Controller.empty.addSong songA).1.addSong songB).1.undo).1.addSong songC).1

/-- **C3 counterexample**: the claim says *every* `undo()` call moves exactly
one action between the two logs; the `undo()` call on the fresh controller
(empty undo log) moves none — the redo log does not grow by one. -/
theorem C3_counterexample :
    ¬ ((Controller.empty.undo).1.redoStack.length =
        Controller.empty.redoStack.length + 1) := by
  decide

/-- **C3 (amended)**: recording a new forward action (a valid `addSong`
outside seeding) clears the redo log; each `undo()`/`redo()` call either
leaves both logs unchanged (empty log or failed reversal) or moves exactly
one action from its own log onto the top of the opposite log — in particular
neither ever clears the opposite log; and after add(A), add(B), undo(),
add(C) the redo log is empty, so `redo()` reports nothing to redo. -/
theorem C3_log_discipline :
    (∀ c : Controller,
      ((c.undo).1.undoStack = c.undoStack ∧ (c.undo).1.redoStack = c.redoStack) ∨
      (∃ a : PAction, c.undoStack = a :: (c.undo).1.undoStack ∧
        (c.undo).1.redoStack = a :: c.redoStack)) ∧
    (∀ c : Controller,
      ((c.redo).1.undoStack = c.undoStack ∧ (c.redo).1.redoStack = c.redoStack) ∨
      (∃ a : PAction, c.redoStack = a :: (c.redo).1.redoStack ∧
        (c.redo).1.undoStack = a :: c.undoStack)) ∧
    (∀ c : Controller, ∀ s : Song, c.isInitializing = false → validSong s = true →
      (c.addSong s).1.redoStack = []) ∧
    (afterABundoC.redoStack = [] ∧ afterABundoC.redo = (afterABundoC, none)) := by
  refine ⟨undo_log_shape, redo_log_shape, ?_, by decide, by decide⟩
  intro c s hinit hv
  unfold Controller.addSong
  rw [if_pos hv]
  simp only [Controller.recordAction]
  rw [if_neg (by simp [hinit])]

/-- **C3 witness**: the clearing clause at a concrete non-seeding controller
holding a stale redo log. -/
theorem C3_witness : (staleLogCtrl.addSong songC).1.redoStack = [] :=
  C3_log_discipline.2.2.1 staleLogCtrl songC rfl (by decide)

/-- The reachable state add(T1); add(T2) (same title "T"); playNext(). -/
def dupReach : Controller :=
  (((Controller.empty.addSong songT1).1.addSong songT2).1.playNext).1

/-- **C2 counterexample**: from the reachable state `dupReach` (two songs
titled "T", cursor on the second), `addSong(C); undo()` does *not* restore
the cursor: the recorded cursor-before index is the first-match index 0, so
undo parks the cursor on node 0 although it was on node 1 before the add. -/
theorem C2_counterexample :
    ((dupReach.addSong songC).1.undo).1.playlist.cur ≠ dupReach.playlist.cur := by
  decide

lemma validSong_parts (S : Song) (h : validSong S = true) :
    S.title ≠ "" ∧ S.artist ≠ "" ∧ S.url ≠ "" := by
  unfold validSong at h
  simp only [Bool.and_eq_true, bne_iff_ne, ne_eq] at h
  exact ⟨h.1.1, h.1.2, h.2⟩

lemma ctrl_moveCurrent_exact (L : List Song) (κ : Option Nat) (sz : Nat)
    (U R : List PAction) (flag : Bool) (i : Nat)
    (hsz : sz = L.length) (hi : i < L.length) :
    (Controller.moveCurrentToIndex ⟨⟨L, κ, sz⟩, U, R, flag⟩ (i : Int)).1 =
      ⟨⟨L, some i, sz⟩, U, R, flag⟩ := by
  unfold Controller.moveCurrentToIndex
  rw [if_neg (by
    show ¬ (DLL.isEmpty ⟨L, κ, sz⟩ = true)
    unfold DLL.isEmpty
    simp
    omega)]
  have hv : max 0 (min (i : Int) (((⟨L, κ, sz⟩ : DLL).size : Int) - 1)) = (i : Int) := by
    show max 0 (min (i : Int) ((sz : Int) - 1)) = (i : Int)
    omega
  rw [hv]
  simp [DLL.moveCurrentToIndex]
  rw [if_neg (by omega)]

lemma ctrl_addSong_empty (U R : List PAction) (S : Song) (hS : validSong S = true) :
    (Controller.addSong ⟨⟨[], none, 0⟩, U, R, false⟩ S).1 =
      ⟨⟨[S], some 0, 1⟩, ⟨ActionType.ADD, S, 0, -1, 0⟩ :: U, [], false⟩ := by
  obtain ⟨hT, -, -⟩ := validSong_parts S hS
  simp [Controller.addSong, hS, Controller.recordAction, Controller.getCurrentIndex,
    DLL.getCurrentSong, DLL.getIndex, DLL.addSong, findTitleNode, hT]

lemma ctrl_addSong_exact (L : List Song) (i sz : Nat) (U R : List PAction) (S : Song)
    (hS : validSong S = true)
    (hsz : sz = L.length)
    (hnd : (L.map Song.title).Nodup)
    (hnb : ∀ s ∈ L, s.title ≠ "")
    (hfresh : ∀ s ∈ L, s.title ≠ S.title)
    (hi : i < L.length) :
    (Controller.addSong ⟨⟨L, some i, sz⟩, U, R, false⟩ S).1 =
      ⟨⟨L ++ [S], some i, sz + 1⟩,
        ⟨ActionType.ADD, S, (sz : Int), (i : Int), (i : Int)⟩ :: U, [], false⟩ := by
  obtain ⟨hT, -, -⟩ := validSong_parts S hS
  have hprev : Controller.getCurrentIndex ⟨⟨L, some i, sz⟩, U, R, false⟩ = (i : Int) :=
    Controller.getCurrentIndex_of_nodup _ i rfl hi hnd hnb
  have hP1 : (DLL.addSong ⟨L, some i, sz⟩ S (((⟨L, some i, sz⟩ : DLL).size : Int))).1
      = ⟨L ++ [S], some i, sz + 1⟩ := by
    have hsz0 : ¬ (sz = 0) := by omega
    rw [DLL.addSong_append _ _ hsz]
    simp [hsz0]
  have hnd2 : ((L ++ [S]).map Song.title).Nodup := by
    rw [List.map_append, List.nodup_append]
    refine ⟨hnd, List.nodup_singleton _, ?_⟩
    intro x hx hy
    simp only [List.map_cons, List.map_nil, List.mem_singleton] at hy
    obtain ⟨s, hs, hxs⟩ := List.mem_map.mp hx
    exact hfresh s hs (by rw [← hxs] at hy; exact hy)
  have hnb2 : ∀ s ∈ L ++ [S], s.title ≠ "" := by
    intro s hs
    rcases List.mem_append.mp hs with h | h
    · exact hnb s h
    · simp only [List.mem_singleton] at h
      subst h
      exact hT
  have hafter : Controller.getCurrentIndex ⟨⟨L ++ [S], some i, sz + 1⟩, U, R, false⟩ = (i : Int) :=
    Controller.getCurrentIndex_of_nodup _ i rfl
      (by simp only [List.length_append]; omega) hnd2 hnb2
  unfold Controller.addSong
  rw [if_pos hS]
  simp only [hP1, hprev, hafter, Controller.recordAction]
  simp

lemma DLL.addSong_snd (st : DLL) (s : Song) (idx : Int) :
    (st.addSong s idx).2 = some s := by
  unfold DLL.addSong
  split
  · rfl
  · split
    · rfl
    · split <;> rfl

lemma DLL.addSong_append_pair (st : DLL) (s : Song) (h0 : st.size ≠ 0) :
    st.addSong s (st.size : Int) =
      ({ songs := st.songs ++ [s], cur := st.cur, size := st.size + 1 }, some s) := by
  unfold DLL.addSong
  rw [if_neg h0]
  have hvi : (max 0 (min (st.size : Int) (st.size : Int))).toNat = st.size := by
    simp
  rw [hvi, if_neg h0, if_pos (Nat.le_refl st.size)]

lemma DLL.addSong_empty_pair (st : DLL) (s : Song) (idx : Int) (h0 : st.size = 0) :
    st.addSong s idx = ({ songs := [s], cur := some 0, size := 1 }, some s) := by
  unfold DLL.addSong
  rw [if_pos h0]

lemma ctrl_undo_after_add (L : List Song) (i sz : Nat) (U : List PAction) (S : Song)
    (hT : S.title ≠ "")
    (hsz : sz = L.length)
    (hfresh : ∀ s ∈ L, s.title ≠ S.title)
    (hi : i < L.length) :
    (Controller.undo ⟨⟨L ++ [S], some i, sz + 1⟩,
        ⟨ActionType.ADD, S, (sz : Int), (i : Int), (i : Int)⟩ :: U, [], false⟩).1 =
      ⟨⟨L, some i, sz⟩, U, [⟨ActionType.ADD, S, (sz : Int), (i : Int), (i : Int)⟩], false⟩ := by
  have hf : findTitleNode S.title (L ++ [S]) = some (L.length, S) :=
    findTitleNode_append_absent _ _ _ hfresh rfl
  have hrm : DLL.removeSong ⟨L ++ [S], some i, sz + 1⟩ S.title = (⟨L, some i, sz⟩, some S) := by
    rw [removeSong_reduce ⟨L ++ [S], some i, sz + 1⟩ S.title L.length S hT hf]
    rw [if_neg (show ¬ ((L ++ [S]).length = 1) from by
      simp only [List.length_append, List.length_cons, List.length_nil]
      omega)]
    rw [if_neg (show ¬ (L.length = 0) from by omega)]
    rw [if_pos (show L.length = (L ++ [S]).length - 1 from by simp)]
    rw [removeAt_append_last]
    simp [show ¬ (i = L.length) from by omega]
  have hmv : (Controller.moveCurrentToIndex ⟨⟨L, some i, sz⟩, U, [], false⟩
      ((i : Nat) : Int)).1 = ⟨⟨L, some i, sz⟩, U, [], false⟩ :=
    ctrl_moveCurrent_exact L (some i) sz U [] false i hsz hi
  unfold Controller.undo
  simp only [hrm]
  rw [if_pos (Int.natCast_nonneg i)]
  rw [hmv]

lemma ctrl_undo_after_add_empty (U : List PAction) (S : Song) (hT : S.title ≠ "") :
    (Controller.undo ⟨⟨[S], some 0, 1⟩, ⟨ActionType.ADD, S, 0, -1, 0⟩ :: U, [], false⟩).1 =
      ⟨⟨[], none, 0⟩, U, [⟨ActionType.ADD, S, 0, -1, 0⟩], false⟩ := by
  have hf : findTitleNode S.title [S] = some (0, S) := by
    simp [findTitleNode]
  have hrm : DLL.removeSong ⟨[S], some 0, 1⟩ S.title = (⟨[], none, 0⟩, some S) := by
    rw [removeSong_reduce ⟨[S], some 0, 1⟩ S.title 0 S hT hf]
    rw [if_pos (show ([S] : List Song).length = 1 from rfl)]
  unfold Controller.undo
  simp only [hrm]
  rw [if_neg (show ¬ ((0 : Int) ≤ (-1 : Int)) from by omega)]

lemma ctrl_redo_to_add (L : List Song) (i sz : Nat) (U : List PAction) (S : Song)
    (hsz : sz = L.length)
    (hi : i < L.length) :
    (Controller.redo ⟨⟨L, some i, sz⟩, U,
        [⟨ActionType.ADD, S, (sz : Int), (i : Int), (i : Int)⟩], false⟩).1 =
      ⟨⟨L ++ [S], some i, sz + 1⟩,
        ⟨ActionType.ADD, S, (sz : Int), (i : Int), (i : Int)⟩ :: U, [], false⟩ := by
  have hadd : DLL.addSong ⟨L, some i, sz⟩ S ((sz : Nat) : Int) =
      (⟨L ++ [S], some i, sz + 1⟩, some S) :=
    DLL.addSong_append_pair ⟨L, some i, sz⟩ S (by show sz ≠ 0; omega)
  have hmv : (Controller.moveCurrentToIndex ⟨⟨L ++ [S], some i, sz + 1⟩, U, [], false⟩
      ((i : Nat) : Int)).1 = ⟨⟨L ++ [S], some i, sz + 1⟩, U, [], false⟩ :=
    ctrl_moveCurrent_exact (L ++ [S]) (some i) (sz + 1) U [] false i
      (by simp only [List.length_append, List.length_cons, List.length_nil]; omega)
      (by simp only [List.length_append, List.length_cons, List.length_nil]; omega)
  unfold Controller.redo
  simp only [hadd]
  rw [if_pos (Int.natCast_nonneg i)]
  rw [hmv]

lemma ctrl_redo_to_add_empty (U : List PAction) (S : Song) :
    (Controller.redo ⟨⟨[], none, 0⟩, U, [⟨ActionType.ADD, S, 0, -1, 0⟩], false⟩).1 =
      ⟨⟨[S], some 0, 1⟩, ⟨ActionType.ADD, S, 0, -1, 0⟩ :: U, [], false⟩ := by
  have hadd : DLL.addSong ⟨[], none, 0⟩ S (0 : Int) = (⟨[S], some 0, 1⟩, some S) :=
    DLL.addSong_empty_pair _ _ _ rfl
  have hmv : (Controller.moveCurrentToIndex ⟨⟨[S], some 0, 1⟩, U, [], false⟩ (0 : Int)).1
      = ⟨⟨[S], some 0, 1⟩, U, [], false⟩ :=
    ctrl_moveCurrent_exact [S] (some 0) 1 U [] false 0 rfl (by simp)
  unfold Controller.redo
  simp only [hadd]
  rw [if_pos (show (0 : Int) ≤ 0 from le_refl 0)]
  rw [hmv]

/-- **C2 (amended)**: for every controller state satisfying the reachable-state
invariants (not seeding, size counter consistent, cursor null exactly on the
empty list and otherwise a valid position) whose playlist titles are pairwise
distinct, and every valid song S whose title does not already occur in the
playlist, `addSong(S); undo()` restores the entire playlist — contents, size
and cursor — and the undo log, and a subsequent `redo()` restores exactly the
state that held immediately after `addSong(S)`. -/
theorem C2_add_undo_redo (c : Controller) (S : Song)
    (hinit : c.isInitializing = false)
    (hsz : c.playlist.size = c.playlist.songs.length)
    (hc0 : c.playlist.songs = [] → c.playlist.cur = none)
    (hc1 : ∀ i, c.playlist.cur = some i → i < c.playlist.songs.length)
    (hc2 : c.playlist.songs ≠ [] → c.playlist.cur ≠ none)
    (hnd : (c.playlist.songs.map Song.title).Nodup)
    (hnb : ∀ s ∈ c.playlist.songs, s.title ≠ "")
    (hfresh : ∀ s ∈ c.playlist.songs, s.title ≠ S.title)
    (hS : validSong S = true) :
    ((c.addSong S).1.undo).1.playlist = c.playlist ∧
    ((c.addSong S).1.undo).1.undoStack = c.undoStack ∧
    ((((c.addSong S).1.undo).1).redo).1 = (c.addSong S).1 := by
  obtain ⟨⟨L, κ, sz⟩, U, R, flag⟩ := c
  simp only at hinit hsz hc0 hc1 hc2 hnd hnb hfresh ⊢
  subst hinit
  obtain ⟨hT, -, -⟩ := validSong_parts S hS
  by_cases hL : L = []
  · subst hL
    have hκ : κ = none := hc0 rfl
    subst hκ
    have hsz0 : sz = 0 := hsz.trans rfl
    subst hsz0
    rw [ctrl_addSong_empty U R S hS]
    rw [ctrl_undo_after_add_empty U S hT]
    rw [ctrl_redo_to_add_empty U S]
    exact ⟨rfl, rfl, rfl⟩
  · have hκ : κ ≠ none := hc2 hL
    obtain ⟨i, hκi⟩ : ∃ i, κ = some i := by
      cases κ with
      | none => exact absurd rfl hκ
      | some j => exact ⟨j, rfl⟩
    subst hκi
    have hi : i < L.length := hc1 i rfl
    rw [ctrl_addSong_exact L i sz U R S hS hsz hnd hnb hfresh hi]
    rw [ctrl_undo_after_add L i sz U S hT hsz hfresh hi]
    rw [ctrl_redo_to_add L i sz U S hsz hi]
    exact ⟨rfl, rfl, rfl⟩

/-- **C2 witness**: the round trip at a concrete two-song controller with
distinct titles, cursor on the second node, adding a fresh-titled song. -/
theorem C2_witness :
    ((distinctCtrl.addSong songC).1.undo).1.playlist = distinctCtrl.playlist ∧
    ((distinctCtrl.addSong songC).1.undo).1.undoStack = distinctCtrl.undoStack ∧
    ((((distinctCtrl.addSong songC).1.undo).1).redo).1 = (distinctCtrl.addSong songC).1 := by
  exact C2_add_undo_redo distinctCtrl songC rfl rfl (by decide)
    (by intro i h; simp [distinctCtrl] at h; subst h; decide) (by decide)
    (by decide) (by decide) (by decide) (by decide)
